import Mathlib

/-!
Verification development for the CouncilSearcher result-card component.

The component (a Vue single-file component) exposes two pieces of logic:

* `highlightedSnippet` — a computed property returning
  `this.result.snippet.replace(/\[(.*?)\]/g, '<span class="highlight">$1</span>')`.

* `downloadTranscript()` — an async method that fetches
  `{API_BASE}/meetings/download_transcript/{uid}` as a blob, builds a
  filename from the bound SearchResult (authority with first character
  uppercased, the title stripped of non-alphanumeric/non-whitespace
  characters, trimmed, split on the space character, first three pieces
  joined, and a date formatted from `new Date(datetime)` local getters
  with `padStart(2, '0')`), creates an object URL for the blob, clicks a
  temporary anchor to save the file, revokes the object URL, and on any
  thrown error logs it and shows a single alert.

The embedding below is a direct translation of that code: JavaScript
strings become `List Char` / `String`, the two regular expressions are
translated to recursive scanners with JavaScript semantics (`.` does not
match line terminators; the character class `\s` is the ECMAScript
whitespace set; `[^a-zA-Z0-9\s]` is ASCII alphanumerics), `new Date`
parsing is host- and timezone-dependent and is therefore a parameter
`parseDate : String → JSDate` returning either an invalid date (all
getters yield NaN) or a local calendar (year, zero-based month, day),
and the browser effects are recorded as an explicit effect trace.
-/

/-- Character test for the ASCII class `[a-zA-Z0-9]` used by the title
sanitisation regex (JavaScript `a-z`, `A-Z`, `0-9` ranges only). -/
def asciiAlnum (c : Char) : Bool :=
  ('a' ≤ c && c ≤ 'z') || ('A' ≤ c && c ≤ 'Z') || ('0' ≤ c && c ≤ '9')

/-- ECMAScript whitespace (`\s` in a regular expression, and the set
removed by `String.prototype.trim`): tab, line feed, vertical tab, form
feed, carriage return, space, NBSP, Ogham space mark, the U+2000–U+200A
range, line separator, paragraph separator, narrow NBSP, medium
mathematical space, ideographic space, and the BOM. -/
def jsWhitespace (c : Char) : Bool :=
  c = ' ' || c = '\t' || c = '\n' || c = '\r' ||
  c.val = 0x0b || c.val = 0x0c || c.val = 0xa0 || c.val = 0x1680 ||
  (0x2000 ≤ c.val && c.val ≤ 0x200a) ||
  c.val = 0x2028 || c.val = 0x2029 || c.val = 0x202f || c.val = 0x205f ||
  c.val = 0x3000 || c.val = 0xfeff

/-- ECMAScript line terminators, which `.` in a regular expression
(without the `s` flag) does not match: LF, CR, LS, PS. -/
def lineTerminator (c : Char) : Bool :=
  c = '\n' || c = '\r' || c.val = 0x2028 || c.val = 0x2029

/-- The SearchResult record bound to the card as the `result` prop. -/
structure SearchResult where
  uid : String
  title : String
  snippet : String
  datetime : String
  start_time : String
  link : String
  authority : String
  deriving DecidableEq, Repr

/-- Opening text of the replacement template in
`snippet.replace(/\[(.*?)\]/g, '<span class="highlight">$1</span>')`. -/
def spanOpen : List Char := "<span class=\"highlight\">".data

/-- Closing text of the replacement template. -/
def spanClose : List Char := "</span>".data

/-- Matching of `(.*?)\]` against the characters after a `[`: the lazy
`.*?` makes the capture extend to the first `]`, and `.` refuses line
terminators, so the match succeeds exactly when a `]` appears before any
line terminator. Returns the capture and the characters after the `]`. -/
def findClose : List Char → Option (List Char × List Char)
  | [] => none
  | c :: cs =>
    if c = ']' then some ([], cs)
    else if lineTerminator c then none
    else
      match findClose cs with
      | some (content, rest) => some (c :: content, rest)
      | none => none

/-- A successful `findClose` consumes at least the closing bracket, so
the remainder is strictly shorter than the input. -/
def findCloseLengthLt :
    ∀ (cs content rest : List Char),
      findClose cs = some (content, rest) → rest.length < cs.length := by
  intro cs
  induction cs with
  | nil => intro content rest h; simp [findClose] at h
  | cons c cs ih =>
    intro content rest h
    by_cases hc : c = ']'
    · simp [findClose, hc] at h
      rw [← h.2]
      simp
    · by_cases hl : lineTerminator c
      · simp [findClose, hc, hl] at h
      · simp only [findClose, if_neg hc, if_neg hl] at h
        cases hfc : findClose cs with
        | none => rw [hfc] at h; simp at h
        | some p =>
          rw [hfc] at h
          cases p with
          | mk content0 rest0 =>
            simp at h
            have := ih content0 rest0 hfc
            rw [← h.2]
            simp only [List.length_cons]
            omega

/-- Scanner for the global replace
`replace(/\[(.*?)\]/g, '<span class="highlight">$1</span>')`: characters
are copied until a `[` that has a matching `]` (per `findClose`) is
found; the bracketed capture is emitted wrapped in the span template and
scanning resumes after the `]` (the replacement text is never
re-scanned); a `[` with no match is copied literally. -/
def highlightCore (l : List Char) : List Char :=
  match l with
  | [] => []
  | c :: cs =>
    if c = '[' then
      match h : findClose cs with
      | some (content, rest) =>
        spanOpen ++ content ++ spanClose ++ highlightCore rest
      | none => c :: highlightCore cs
    else c :: highlightCore cs
termination_by l.length
decreasing_by
  · exact Nat.lt_succ_of_lt (findCloseLengthLt cs content rest h)
  · simp
  · simp

/-- String-level form of the snippet transform. -/
def highlightString (s : String) : String :=
  String.mk (highlightCore s.data)

/-- The computed property `highlightedSnippet` of the card: reads only
`result.snippet` and applies the bracket-replacement transform. -/
def highlightedSnippet (r : SearchResult) : String :=
  highlightString r.snippet

/-- Global replace of a single-character class with the empty string, as
in `title.replace(/[^a-zA-Z0-9\s]/g, '')`: every character matching the
class is deleted, every other character is kept. -/
def regexRemoveClass (cls : Char → Bool) : List Char → List Char
  | [] => []
  | c :: cs =>
    if cls c then regexRemoveClass cls cs else c :: regexRemoveClass cls cs

/-- Removal of leading ECMAScript whitespace (one side of `trim()`). -/
def jsTrimLeft : List Char → List Char
  | [] => []
  | c :: cs => if jsWhitespace c then jsTrimLeft cs else c :: cs

/-- JavaScript `String.prototype.trim`: whitespace removed from both
ends. -/
def jsTrim (l : List Char) : List Char :=
  (jsTrimLeft (jsTrimLeft l).reverse).reverse

/-- JavaScript `split(' ')` with the single-character separator `' '`:
every space character is a separator and consecutive separators produce
empty pieces; splitting the empty string yields one empty piece. -/
def splitOnSpace : List Char → List (List Char)
  | [] => [[]]
  | c :: cs =>
    if c = ' ' then [] :: splitOnSpace cs
    else
      match splitOnSpace cs with
      | t :: ts => (c :: t) :: ts
      | [] => [[c]]

/-- JavaScript `join('')` on an array of strings. -/
def joinAll : List (List Char) → List Char
  | [] => []
  | t :: ts => t ++ joinAll ts

/-- The title segment of the transcript filename, translating
`title.replace(/[^a-zA-Z0-9\s]/g, '').trim().split(' ').slice(0, 3).join('')`. -/
def titleSegment (title : String) : String :=
  String.mk (joinAll (List.take 3 (splitOnSpace (jsTrim
    (regexRemoveClass (fun c => !(asciiAlnum c || jsWhitespace c)) title.data)))))

/-- JavaScript `charAt(0)`: a string holding the first character, or the
empty string when the input is empty. -/
def jsCharAt0 (s : String) : List Char :=
  match s.data with
  | [] => []
  | c :: _ => [c]

/-- JavaScript `slice(1)`: everything after the first character. -/
def jsSliceFrom1 (s : String) : List Char :=
  match s.data with
  | [] => []
  | _ :: cs => cs

/-- JavaScript `toUpperCase` applied to the result of `charAt(0)`,
with the case conversion per code point given by the parameter `up`:
ECMAScript `toUpperCase` maps each code point of the receiver through
the Unicode Default Case Conversion, under which one code point may
become several (for example `é` becomes `É` and `ß` becomes `SS`, so
`up 'ß' = ['S', 'S']`). The full Unicode table is not reproduced here;
theorems about this function quantify over every conversion map and so
cover the genuine ECMAScript one. -/
def jsToUpperStringOf (up : Char → List Char) (l : List Char) : List Char :=
  List.flatten (l.map up)

/-- The authority segment of the filename, translating
`authority.charAt(0).toUpperCase() + authority.slice(1)` with the case
conversion `up` left as a parameter (see `jsToUpperStringOf`). -/
def authoritySegmentJS (up : Char → List Char) (authority : String) : String :=
  String.mk (jsToUpperStringOf up (jsCharAt0 authority) ++
    jsSliceFrom1 authority)

/-- The per-character uppercase map restricted to ASCII
(`Char.toUpper`), i.e. the portion of the Unicode Default Case
Conversion that the ASCII-only claims of this development exercise; on
ASCII input it agrees with ECMAScript `toUpperCase`, on other input it
is the identity and may diverge from it. -/
def jsToUpperString (l : List Char) : List Char :=
  l.map Char.toUpper

/-- The authority segment at the ASCII-only conversion map: the
instance of `authoritySegmentJS` used by the filename pipeline in this
development, where every claim that pins the authority pins it to an
ASCII string. -/
def authoritySegment (authority : String) : String :=
  String.mk (jsToUpperString (jsCharAt0 authority) ++ jsSliceFrom1 authority)

/-- Result of `new Date(datetime)` as observed through the local-time
getters used by the component: either an invalid date (every getter
yields NaN) or a local calendar position with `getFullYear`, zero-based
`getMonth`, and day-of-month `getDate`. Parsing itself is host- and
timezone-dependent, so it stays a parameter of the model. -/
inductive JSDate where
  | invalid
  | valid (year : Int) (month0 : Nat) (day : Nat)
  deriving DecidableEq, Repr

/-- The `getFullYear()` getter; `none` models NaN. -/
def jsGetFullYear : JSDate → Option Int
  | JSDate.invalid => none
  | JSDate.valid y _ _ => some y

/-- The `getMonth()` getter (zero-based month); `none` models NaN. -/
def jsGetMonth0 : JSDate → Option Nat
  | JSDate.invalid => none
  | JSDate.valid _ m _ => some m

/-- The `getDate()` getter (day of month); `none` models NaN. -/
def jsGetDate : JSDate → Option Nat
  | JSDate.invalid => none
  | JSDate.valid _ _ d => some d

/-- JavaScript `String(n)` for a number that is a nonnegative integer or
NaN (`none`). -/
def jsNatToString : Option Nat → String
  | none => "NaN"
  | some n => toString n

/-- JavaScript `String(n)` for a number that is an integer or NaN
(`none`); used for `getFullYear`, which may be negative. -/
def jsIntToString : Option Int → String
  | none => "NaN"
  | some n => toString n

/-- JavaScript `padStart(2, '0')`: pad on the left with `'0'` up to
length two; strings already at least two characters long (including
`"NaN"`) are returned unchanged. -/
def padStart2 (s : String) : String :=
  if s.length < 2 then String.mk (List.replicate (2 - s.length) '0') ++ s
  else s

/-- The date segment of the filename: `${year}-${month}-${day}` with
`day = String(date.getDate()).padStart(2, '0')`,
`month = String(date.getMonth() + 1).padStart(2, '0')`, and
`year = String(date.getFullYear())` (no padding on the year). -/
def dateSegment (d : JSDate) : String :=
  jsIntToString (jsGetFullYear d) ++ "-" ++
    padStart2 (jsNatToString ((jsGetMonth0 d).map (· + 1))) ++ "-" ++
    padStart2 (jsNatToString (jsGetDate d))

/-- The complete filename template
`${authority}-${title}-[${date_str}].txt`. -/
def transcriptFilename (parseDate : String → JSDate) (r : SearchResult) : String :=
  authoritySegment r.authority ++ "-" ++ titleSegment r.title ++ "-[" ++
    dateSegment (parseDate r.datetime) ++ "].txt"

/-- The request URL `${API_BASE}/meetings/download_transcript/${uid}`. -/
def requestUrl (apiBase : String) (r : SearchResult) : String :=
  apiBase ++ "/meetings/download_transcript/" ++ r.uid

/-- Byte content of `new Blob(parts)`: concatenation of the parts. The
component builds `new Blob([response.data])` from the single response
blob. -/
def blobOfParts (parts : List (List Nat)) : List Nat :=
  List.flatten parts

/-- Browser effects performed by `downloadTranscript`, in order:
the HTTP GET, `URL.createObjectURL` on the blob, the programmatic click
of the temporary anchor carrying the `download` filename (the file-save
trigger, saving the object URL's bytes), `URL.revokeObjectURL`, and — on
the catch path — `console.error` and the blocking `alert`. -/
inductive Effect where
  | fetchGet (url : String)
  | createObjectURL (bytes : List Nat)
  | saveFile (filename : String) (bytes : List Nat)
  | revokeObjectURL (bytes : List Nat)
  | consoleError
  | alert (msg : String)
  deriving DecidableEq, Repr

/-- The alert text shown on the catch path. -/
def alertMessage : String := "Failed to download transcript. Please try again."

/-- Outcome of one `downloadTranscript()` invocation: the ordered effect
trace, the error (if any) propagated to the caller, and the state of the
bound SearchResult after the call. -/
structure DownloadOutcome where
  trace : List Effect
  thrown : Option String
  finalResult : SearchResult
  deriving DecidableEq, Repr

/-- The `downloadTranscript` method. `fetch` models
`axios.get(..., { responseType: 'blob' })`, which throws on network
failure and on non-2xx statuses (`Except.error`) and otherwise yields
the response body bytes. On success the filename is built, an object URL
is created for `new Blob([response.data])`, the anchor click triggers
the save, and the object URL is revoked; the catch-all handler turns any
thrown error into a `console.error` plus one `alert`, so nothing
propagates to the caller. The method never writes to `result`, so the
final SearchResult is the input one. -/
def downloadTranscript (apiBase : String) (parseDate : String → JSDate)
    (fetch : String → Except String (List Nat)) (r : SearchResult) :
    DownloadOutcome :=
  match fetch (requestUrl apiBase r) with
  | Except.error _ =>
    { trace := [Effect.fetchGet (requestUrl apiBase r),
                Effect.consoleError,
                Effect.alert alertMessage],
      thrown := none,
      finalResult := r }
  | Except.ok bytes =>
    { trace := [Effect.fetchGet (requestUrl apiBase r),
                Effect.createObjectURL (blobOfParts [bytes]),
                Effect.saveFile (transcriptFilename parseDate r)
                  (blobOfParts [bytes]),
                Effect.revokeObjectURL (blobOfParts [bytes])],
      thrown := none,
      finalResult := r }

/-- Predicate picking out `createObjectURL` effects. -/
def isCreateEff : Effect → Bool
  | Effect.createObjectURL _ => true
  | _ => false

/-- Predicate picking out `revokeObjectURL` effects. -/
def isRevokeEff : Effect → Bool
  | Effect.revokeObjectURL _ => true
  | _ => false

/-- Predicate picking out file-save (anchor click) effects. -/
def isSaveEff : Effect → Bool
  | Effect.saveFile _ _ => true
  | _ => false

/-- Predicate picking out alert effects. -/
def isAlertEff : Effect → Bool
  | Effect.alert _ => true
  | _ => false

/-- Predicate picking out HTTP GET effects. -/
def isFetchEff : Effect → Bool
  | Effect.fetchGet _ => true
  | _ => false

/-- Predicate picking out `console.error` effects. -/
def isLogEff : Effect → Bool
  | Effect.consoleError => true
  | _ => false

/-- Characters the specified title sanitisation keeps: letters, digits,
or whitespace. -/
def keptChar (c : Char) : Bool :=
  asciiAlnum c || jsWhitespace c

/-- Trimming of leading and trailing whitespace, written with
`List.dropWhile` (spec-side formulation). -/
def trimWs (l : List Char) : List Char :=
  ((l.dropWhile jsWhitespace).reverse.dropWhile jsWhitespace).reverse

/-- Splitting at every space character, written as a right fold
(spec-side formulation of the amended title rule): consecutive spaces
yield empty pieces and the empty string yields one empty piece. -/
def spaceSplit (l : List Char) : List (List Char) :=
  l.foldr
    (fun c acc =>
      if c = ' ' then [] :: acc
      else
        match acc with
        | t :: ts => (c :: t) :: ts
        | [] => [[c]])
    [[]]

/-- Whitespace-delimited tokens of a character list: the maximal
nonempty runs of non-whitespace characters, as in the claimed rule
"split on whitespace". The first argument accumulates the current run in
reverse. -/
def wsTokensAux : List Char → List Char → List (List Char)
  | cur, [] => if cur = [] then [] else [cur.reverse]
  | cur, c :: cs =>
    if jsWhitespace c then
      if cur = [] then wsTokensAux [] cs else cur.reverse :: wsTokensAux [] cs
    else wsTokensAux (c :: cur) cs

/-- The title rule exactly as the claim states it: remove every
character that is not a letter, digit, or whitespace; trim; split on
whitespace into tokens; keep at most the first three tokens; concatenate
them. -/
def specTitleClaim (title : String) : String :=
  String.mk (List.flatten (List.take 3 (wsTokensAux []
    (trimWs (title.data.filter keptChar)))))

/-- The amended title rule: remove every character that is not an ASCII
letter, digit, or whitespace; trim leading and trailing whitespace;
split on the space character only (consecutive spaces produce empty
pieces that count toward the limit, and non-space whitespace is not a
separator); keep at most the first three pieces; concatenate them. -/
def specTitleAmended (title : String) : String :=
  String.mk (List.flatten (List.take 3 (spaceSplit
    (trimWs (title.data.filter keptChar)))))

/-- Two-digit zero-padded decimal rendering of a number below 100, as
the claimed date rule describes the month and day fields. -/
def specPad2 (n : Nat) : String :=
  if n < 10 then "0" ++ toString n else toString n

/-! Helper lemmas shared by the claim theorems. -/

theorem regexRemoveClass_eq_filter (cls : Char → Bool) (l : List Char) :
    regexRemoveClass cls l = l.filter (fun c => !cls c) := by
  induction l with
  | nil => rfl
  | cons c cs ih =>
    by_cases h : cls c <;> simp [regexRemoveClass, List.filter, h, ih]

theorem jsTrimLeft_eq_dropWhile (l : List Char) :
    jsTrimLeft l = l.dropWhile jsWhitespace := by
  induction l with
  | nil => rfl
  | cons c cs ih =>
    by_cases h : jsWhitespace c <;> simp [jsTrimLeft, List.dropWhile, h, ih]

theorem jsTrim_eq_trimWs (l : List Char) : jsTrim l = trimWs l := by
  simp [jsTrim, trimWs, jsTrimLeft_eq_dropWhile]

theorem spaceSplit_cons (c : Char) (cs : List Char) :
    spaceSplit (c :: cs) =
      if c = ' ' then [] :: spaceSplit cs
      else
        match spaceSplit cs with
        | t :: ts => (c :: t) :: ts
        | [] => [[c]] := rfl

theorem splitOnSpace_eq_spaceSplit (l : List Char) :
    splitOnSpace l = spaceSplit l := by
  induction l with
  | nil => rfl
  | cons c cs ih => rw [spaceSplit_cons, ← ih]; rfl

theorem joinAll_eq_flatten (ls : List (List Char)) :
    joinAll ls = ls.flatten := by
  induction ls with
  | nil => rfl
  | cons t ts ih => simp [joinAll, ih]

theorem downloadTranscript_ok (apiBase : String) (parseDate : String → JSDate)
    (fetch : String → Except String (List Nat)) (r : SearchResult)
    (bytes : List Nat) (h : fetch (requestUrl apiBase r) = Except.ok bytes) :
    downloadTranscript apiBase parseDate fetch r =
      { trace := [Effect.fetchGet (requestUrl apiBase r),
                  Effect.createObjectURL (blobOfParts [bytes]),
                  Effect.saveFile (transcriptFilename parseDate r)
                    (blobOfParts [bytes]),
                  Effect.revokeObjectURL (blobOfParts [bytes])],
        thrown := none,
        finalResult := r } := by
  unfold downloadTranscript
  rw [h]

theorem downloadTranscript_err (apiBase : String) (parseDate : String → JSDate)
    (fetch : String → Except String (List Nat)) (r : SearchResult)
    (e : String) (h : fetch (requestUrl apiBase r) = Except.error e) :
    downloadTranscript apiBase parseDate fetch r =
      { trace := [Effect.fetchGet (requestUrl apiBase r),
                  Effect.consoleError,
                  Effect.alert alertMessage],
        thrown := none,
        finalResult := r } := by
  unfold downloadTranscript
  rw [h]

theorem blobOfParts_single (bytes : List Nat) : blobOfParts [bytes] = bytes := by
  simp [blobOfParts]

theorem flatten_map_singleton (f : Char → Char) (l : List Char) :
    List.flatten (l.map fun c => [f c]) = l.map f := by
  induction l with
  | nil => rfl
  | cons c cs ih => simp [ih]

theorem padStart2_eq_specPad2_small :
    ∀ i : Fin 32, padStart2 (toString i.val) = specPad2 i.val := by decide

theorem highlightCore_nil : highlightCore [] = [] := by simp [highlightCore]

theorem highlightCore_cons_ne (c : Char) (cs : List Char) (h : c ≠ '[') :
    highlightCore (c :: cs) = c :: highlightCore cs := by
  rw [highlightCore]
  simp [h]

theorem highlightCore_open_some (cs content rest : List Char)
    (h : findClose cs = some (content, rest)) :
    highlightCore ('[' :: cs) =
      spanOpen ++ content ++ spanClose ++ highlightCore rest := by
  rw [highlightCore]
  split
  · split
    · rename_i content2 rest2 heq
      rw [h] at heq
      injection heq with hpair
      injection hpair with h1 h2
      subst h1
      subst h2
      rfl
    · rename_i heq
      rw [h] at heq
      exact absurd heq (by simp)
  · rename_i hfalse
    exact absurd rfl hfalse

theorem highlightCore_open_none (cs : List Char) (h : findClose cs = none) :
    highlightCore ('[' :: cs) = '[' :: highlightCore cs := by
  rw [highlightCore]
  split
  · split
    · rename_i content2 rest2 heq
      rw [h] at heq
      exact absurd heq (by simp)
    · rfl
  · rename_i hfalse
    exact absurd rfl hfalse

theorem findClose_append (x t : List Char) (hx : ']' ∉ x)
    (hlt : ∀ c ∈ x, lineTerminator c = false) :
    findClose (x ++ ']' :: t) = some (x, t) := by
  induction x with
  | nil => simp [findClose]
  | cons c cs ih =>
    have hc : c ≠ ']' := by intro hh; exact hx (by simp [hh])
    have hl : lineTerminator c = false := hlt c (by simp)
    have ih2 : findClose (cs ++ ']' :: t) = some (cs, t) :=
      ih (fun hh => hx (List.mem_cons_of_mem c hh))
        (fun d hd => hlt d (List.mem_cons_of_mem c hd))
    simp [findClose, hc, hl, ih2]

theorem findClose_none (t : List Char) (ht : ']' ∉ t) : findClose t = none := by
  induction t with
  | nil => rfl
  | cons c cs ih =>
    have hc : c ≠ ']' := by intro hh; exact ht (by simp [hh])
    have ih2 : findClose cs = none :=
      ih (fun hh => ht (List.mem_cons_of_mem c hh))
    by_cases hl : lineTerminator c <;> simp [findClose, hc, hl, ih2]

theorem highlightCore_copy (p rest : List Char) (hp : ('[' : Char) ∉ p) :
    highlightCore (p ++ rest) = p ++ highlightCore rest := by
  induction p with
  | nil => rfl
  | cons c cs ih =>
    have hc : c ≠ '[' := by intro hh; exact hp (by simp [hh])
    have ih2 := ih (fun hh => hp (List.mem_cons_of_mem c hh))
    simp only [List.cons_append, highlightCore_cons_ne c (cs ++ rest) hc, ih2]

theorem highlightCore_id (p : List Char) (hp : ('[' : Char) ∉ p) :
    highlightCore p = p := by
  have h := highlightCore_copy p [] hp
  simpa [highlightCore_nil] using h

/-- C2 counterexample: the title `"a\tb c d"` sanitises to itself (a tab
is whitespace and is kept), and the code splits on the space character
only, producing the segment `"a\tbcd"` — while splitting on whitespace
as the claim states yields tokens `a`, `b`, `c`, `d` and the segment
`"abc"`. -/
theorem c2_title_rule_counterexample :
    titleSegment "a\tb c d" = "a\tbcd" ∧
    specTitleClaim "a\tb c d" = "abc" ∧
    titleSegment "a\tb c d" ≠ specTitleClaim "a\tb c d" := by decide

/-- C2 (amended): for every title string, the title segment equals the
result of removing every character that is not an ASCII letter, digit,
or whitespace; trimming leading and trailing whitespace; splitting on
the space character only (consecutive spaces produce empty pieces that
count toward the limit, and non-space whitespace is not a separator);
taking at most the first 3 pieces; and concatenating them with no
separator. -/
theorem c2_title_segment_amended (title : String) :
    titleSegment title = specTitleAmended title := by
  have hpred :
      (title.data.filter fun c => !(fun c => !(asciiAlnum c || jsWhitespace c)) c) =
        title.data.filter keptChar := by
    apply List.filter_congr
    intro c _
    simp [keptChar]
  simp only [titleSegment, specTitleAmended, regexRemoveClass_eq_filter,
    jsTrim_eq_trimWs, splitOnSpace_eq_spaceSplit, joinAll_eq_flatten, hpred]

/-- C6: for every datetime string that the host parses to a valid date,
the date segment of the filename is the year, the zero-padded two-digit
month, and the zero-padded two-digit day of the parsed instant's local
calendar representation, joined as `YYYY-MM-DD`. -/
theorem c6_date_segment (parseDate : String → JSDate) (r : SearchResult)
    (y : Int) (m0 d : Nat) (hp : parseDate r.datetime = JSDate.valid y m0 d)
    (hm : m0 < 12) (hd : d ≤ 31) :
    dateSegment (parseDate r.datetime) =
      toString y ++ "-" ++ specPad2 (m0 + 1) ++ "-" ++ specPad2 d := by
  have h1 : padStart2 (toString (m0 + 1)) = specPad2 (m0 + 1) :=
    padStart2_eq_specPad2_small ⟨m0 + 1, by omega⟩
  have h2 : padStart2 (toString d) = specPad2 d :=
    padStart2_eq_specPad2_small ⟨d, by omega⟩
  rw [hp]
  simp only [dateSegment, jsGetFullYear, jsGetMonth0, jsGetDate, Option.map,
    jsIntToString, jsNatToString, h1, h2]

/-- Host date parser used in the C6 witness. -/
def c6ParseDateW : String → JSDate := fun _ => JSDate.valid 2024 2 5

/-- SearchResult used in the C6 witness. -/
def c6ResultW : SearchResult :=
  { uid := "u", title := "t", snippet := "s",
    datetime := "2024-03-05T10:00:00Z", start_time := "st", link := "l",
    authority := "a" }

theorem c6_date_segment_witness :
    dateSegment (c6ParseDateW c6ResultW.datetime) =
      toString (2024 : Int) ++ "-" ++ specPad2 (2 + 1) ++ "-" ++ specPad2 5 :=
  c6_date_segment c6ParseDateW c6ResultW 2024 2 5 rfl (by decide) (by decide)

/-- C7: for every per-code-point case conversion map — hence for the
genuine ECMAScript Default Case Conversion in particular — the
authority segment is the input with only its first character sent
through the conversion and all remaining characters left exactly as
they were, and the empty string stays empty; the `authoritySegment`
used by the filename pipeline is the instance of this construction at
the ASCII map, under which `"council"` yields `"Council"` and
`"COUNCIL"` stays `"COUNCIL"` with no lowercasing of the remainder. -/
theorem c7_authority_segment :
    (∀ up : Char → List Char,
      authoritySegmentJS up "" = "" ∧
      ∀ (c : Char) (cs : List Char),
        authoritySegmentJS up (String.mk (c :: cs)) = String.mk (up c ++ cs)) ∧
    (∀ a : String,
      authoritySegment a = authoritySegmentJS (fun c => [Char.toUpper c]) a) ∧
    authoritySegment "council" = "Council" ∧
    authoritySegment "COUNCIL" = "COUNCIL" := by
  refine ⟨fun up => ⟨rfl, fun c cs => ?_⟩, fun a => ?_, by decide, by decide⟩
  · simp [authoritySegmentJS, jsToUpperStringOf, jsCharAt0, jsSliceFrom1]
  · simp [authoritySegment, authoritySegmentJS, jsToUpperString,
      jsToUpperStringOf, flatten_map_singleton]

/-- C8: for every title that sanitises to nothing, the title segment is
empty and the composed filename shows a double hyphen between the
authority and date segments. -/
theorem c8_empty_title_double_hyphen (parseDate : String → JSDate)
    (r : SearchResult)
    (h : jsTrim (regexRemoveClass (fun c => !(asciiAlnum c || jsWhitespace c))
      r.title.data) = []) :
    titleSegment r.title = "" ∧
    transcriptFilename parseDate r =
      authoritySegment r.authority ++ "--[" ++
        dateSegment (parseDate r.datetime) ++ "].txt" := by
  have ht : titleSegment r.title = "" := by
    rw [titleSegment, h]
    rfl
  refine ⟨ht, ?_⟩
  rw [transcriptFilename, ht]
  apply String.ext
  simp [String.data_append]

/-- SearchResult used in the C8 witness: its title is all punctuation,
so it sanitises to nothing. -/
def c8ResultW : SearchResult :=
  { uid := "u", title := "!!!", snippet := "s", datetime := "d",
    start_time := "st", link := "l", authority := "council" }

/-- Host date parser used in the C8 witness. -/
def c8ParseDateW : String → JSDate := fun _ => JSDate.invalid

theorem c8_empty_title_double_hyphen_witness :
    titleSegment c8ResultW.title = "" ∧
    transcriptFilename c8ParseDateW c8ResultW =
      authoritySegment c8ResultW.authority ++ "--[" ++
        dateSegment (c8ParseDateW c8ResultW.datetime) ++ "].txt" :=
  c8_empty_title_double_hyphen c8ParseDateW c8ResultW (by decide)

/-- C1: for a SearchResult with authority `"council"`, title
`"Full Council Meeting - March"`, datetime `"2024-03-05T10:00:00Z"`
(parsed by the host to the local calendar date 2024-03-05), and uid
`"abc123"`, a successful `downloadTranscript` saves the response under
the filename `"Council-FullCouncilMeeting-[2024-03-05].txt"`, the saved
bytes are exactly the HTTP response body, and no error escapes. -/
theorem c1_end_to_end (apiBase : String) (parseDate : String → JSDate)
    (fetch : String → Except String (List Nat)) (r : SearchResult)
    (bytes : List Nat)
    (hu : r.uid = "abc123") (ht : r.title = "Full Council Meeting - March")
    (hdt : r.datetime = "2024-03-05T10:00:00Z") (ha : r.authority = "council")
    (hp : parseDate "2024-03-05T10:00:00Z" = JSDate.valid 2024 2 5)
    (hf : fetch (requestUrl apiBase r) = Except.ok bytes) :
    (downloadTranscript apiBase parseDate fetch r).trace =
      [Effect.fetchGet (requestUrl apiBase r),
       Effect.createObjectURL bytes,
       Effect.saveFile "Council-FullCouncilMeeting-[2024-03-05].txt" bytes,
       Effect.revokeObjectURL bytes] ∧
    (downloadTranscript apiBase parseDate fetch r).thrown = none := by
  rw [downloadTranscript_ok apiBase parseDate fetch r bytes hf]
  refine ⟨?_, rfl⟩
  have hfn : transcriptFilename parseDate r =
      "Council-FullCouncilMeeting-[2024-03-05].txt" := by
    rw [transcriptFilename, ht, ha, hdt, hp]
    decide
  rw [blobOfParts_single, hfn]

/-- SearchResult used in the C1 witness. -/
def c1ResultW : SearchResult :=
  { uid := "abc123", title := "Full Council Meeting - March", snippet := "s",
    datetime := "2024-03-05T10:00:00Z", start_time := "st", link := "l",
    authority := "council" }

/-- Host date parser used in the C1 witness. -/
def c1ParseDateW : String → JSDate := fun _ => JSDate.valid 2024 2 5

/-- Fetch stub used in the C1 witness: every request succeeds with the
bytes `[72, 105]`. -/
def c1FetchW : String → Except String (List Nat) := fun _ => Except.ok [72, 105]

theorem c1_end_to_end_witness :
    (downloadTranscript "http://api" c1ParseDateW c1FetchW c1ResultW).trace =
      [Effect.fetchGet (requestUrl "http://api" c1ResultW),
       Effect.createObjectURL [72, 105],
       Effect.saveFile "Council-FullCouncilMeeting-[2024-03-05].txt" [72, 105],
       Effect.revokeObjectURL [72, 105]] ∧
    (downloadTranscript "http://api" c1ParseDateW c1FetchW c1ResultW).thrown =
      none :=
  c1_end_to_end "http://api" c1ParseDateW c1FetchW c1ResultW [72, 105]
    rfl rfl rfl rfl rfl rfl

/-- C4: when the fetch fails, the error is caught at the call site, one
`console.error` is logged, exactly one blocking alert is shown, nothing
is re-thrown to the caller, no file-save or object URL is produced, and
no second request is issued. -/
theorem c4_failure_path (apiBase : String) (parseDate : String → JSDate)
    (fetch : String → Except String (List Nat)) (r : SearchResult)
    (e : String) (hf : fetch (requestUrl apiBase r) = Except.error e) :
    (downloadTranscript apiBase parseDate fetch r).trace =
      [Effect.fetchGet (requestUrl apiBase r), Effect.consoleError,
       Effect.alert alertMessage] ∧
    (downloadTranscript apiBase parseDate fetch r).thrown = none ∧
    (downloadTranscript apiBase parseDate fetch r).trace.countP isAlertEff = 1 ∧
    (downloadTranscript apiBase parseDate fetch r).trace.countP isSaveEff = 0 ∧
    (downloadTranscript apiBase parseDate fetch r).trace.countP isCreateEff = 0 ∧
    (downloadTranscript apiBase parseDate fetch r).trace.countP isFetchEff = 1 ∧
    (downloadTranscript apiBase parseDate fetch r).trace.countP isLogEff = 1 := by
  rw [downloadTranscript_err apiBase parseDate fetch r e hf]
  refine ⟨rfl, rfl, ?_, ?_, ?_, ?_, ?_⟩ <;>
    simp [List.countP, List.countP.go, isAlertEff, isSaveEff, isCreateEff,
      isFetchEff, isLogEff]

/-- SearchResult used in the C4 witness. -/
def c4ResultW : SearchResult :=
  { uid := "u", title := "t", snippet := "s", datetime := "d",
    start_time := "st", link := "l", authority := "a" }

/-- Fetch stub used in the C4 witness: every request fails. -/
def c4FetchW : String → Except String (List Nat) :=
  fun _ => Except.error "network down"

theorem c4_failure_path_witness :
    (downloadTranscript "http://api" c8ParseDateW c4FetchW c4ResultW).trace =
      [Effect.fetchGet (requestUrl "http://api" c4ResultW),
       Effect.consoleError, Effect.alert alertMessage] ∧
    (downloadTranscript "http://api" c8ParseDateW c4FetchW c4ResultW).thrown =
      none ∧
    (downloadTranscript "http://api" c8ParseDateW c4FetchW
      c4ResultW).trace.countP isAlertEff = 1 ∧
    (downloadTranscript "http://api" c8ParseDateW c4FetchW
      c4ResultW).trace.countP isSaveEff = 0 ∧
    (downloadTranscript "http://api" c8ParseDateW c4FetchW
      c4ResultW).trace.countP isCreateEff = 0 ∧
    (downloadTranscript "http://api" c8ParseDateW c4FetchW
      c4ResultW).trace.countP isFetchEff = 1 ∧
    (downloadTranscript "http://api" c8ParseDateW c4FetchW
      c4ResultW).trace.countP isLogEff = 1 :=
  c4_failure_path "http://api" c8ParseDateW c4FetchW c4ResultW
    "network down" rfl

/-- C5: on every path the number of created object URLs equals the
number of revoked ones, and on every successful download exactly one
revocation happens and it comes after the save trigger. -/
theorem c5_object_url_released (apiBase : String) (parseDate : String → JSDate)
    (fetch : String → Except String (List Nat)) (r : SearchResult) :
    ((downloadTranscript apiBase parseDate fetch r).trace.countP isCreateEff =
      (downloadTranscript apiBase parseDate fetch r).trace.countP isRevokeEff) ∧
    ∀ bytes : List Nat, fetch (requestUrl apiBase r) = Except.ok bytes →
      (downloadTranscript apiBase parseDate fetch r).trace.countP isRevokeEff
        = 1 ∧
      ∃ i j : Nat, i < j ∧
        (downloadTranscript apiBase parseDate fetch r).trace.get? i =
          some (Effect.saveFile (transcriptFilename parseDate r) bytes) ∧
        (downloadTranscript apiBase parseDate fetch r).trace.get? j =
          some (Effect.revokeObjectURL bytes) := by
  cases hf : fetch (requestUrl apiBase r) with
  | error e =>
    rw [downloadTranscript_err apiBase parseDate fetch r e hf]
    refine ⟨by simp [List.countP, List.countP.go, isCreateEff, isRevokeEff], ?_⟩
    intro bytes hb
    exact absurd hb (by simp)
  | ok b =>
    rw [downloadTranscript_ok apiBase parseDate fetch r b hf,
      blobOfParts_single]
    refine ⟨by simp [List.countP, List.countP.go, isCreateEff, isRevokeEff], ?_⟩
    intro bytes hb
    injection hb with hb'
    subst hb'
    refine ⟨by simp [List.countP, List.countP.go, isRevokeEff], 2, 3,
      by omega, ?_, ?_⟩
    · rfl
    · rfl

theorem c5_object_url_released_witness :
    ((downloadTranscript "http://api" c1ParseDateW c1FetchW
        c1ResultW).trace.countP isCreateEff =
      (downloadTranscript "http://api" c1ParseDateW c1FetchW
        c1ResultW).trace.countP isRevokeEff) ∧
    ((downloadTranscript "http://api" c1ParseDateW c1FetchW
        c1ResultW).trace.countP isRevokeEff = 1 ∧
     ∃ i j : Nat, i < j ∧
       (downloadTranscript "http://api" c1ParseDateW c1FetchW
         c1ResultW).trace.get? i =
         some (Effect.saveFile (transcriptFilename c1ParseDateW c1ResultW)
           [72, 105]) ∧
       (downloadTranscript "http://api" c1ParseDateW c1FetchW
         c1ResultW).trace.get? j =
         some (Effect.revokeObjectURL [72, 105])) :=
  ⟨(c5_object_url_released "http://api" c1ParseDateW c1FetchW c1ResultW).1,
   (c5_object_url_released "http://api" c1ParseDateW c1FetchW c1ResultW).2
     [72, 105] rfl⟩

/-- C9: neither the snippet transform nor `downloadTranscript` mutates
any field of the bound SearchResult, the snippet transform reads only
the snippet field, and the download behaviour is a function of the
fields it reads (no state carried between invocations). -/
theorem c9_no_mutation (apiBase : String) (parseDate : String → JSDate)
    (fetch : String → Except String (List Nat)) (r : SearchResult) :
    ((downloadTranscript apiBase parseDate fetch r).finalResult.uid = r.uid ∧
     (downloadTranscript apiBase parseDate fetch r).finalResult.title = r.title ∧
     (downloadTranscript apiBase parseDate fetch r).finalResult.snippet =
       r.snippet ∧
     (downloadTranscript apiBase parseDate fetch r).finalResult.datetime =
       r.datetime ∧
     (downloadTranscript apiBase parseDate fetch r).finalResult.start_time =
       r.start_time ∧
     (downloadTranscript apiBase parseDate fetch r).finalResult.link = r.link ∧
     (downloadTranscript apiBase parseDate fetch r).finalResult.authority =
       r.authority) ∧
    (∀ r' : SearchResult, r.snippet = r'.snippet →
      highlightedSnippet r = highlightedSnippet r') ∧
    (∀ r' : SearchResult, r.uid = r'.uid → r.title = r'.title →
      r.datetime = r'.datetime → r.authority = r'.authority →
      (downloadTranscript apiBase parseDate fetch r).trace =
        (downloadTranscript apiBase parseDate fetch r').trace ∧
      (downloadTranscript apiBase parseDate fetch r).thrown =
        (downloadTranscript apiBase parseDate fetch r').thrown) := by
  have hfr : (downloadTranscript apiBase parseDate fetch r).finalResult = r := by
    cases hf : fetch (requestUrl apiBase r) with
    | error e => rw [downloadTranscript_err apiBase parseDate fetch r e hf]
    | ok b => rw [downloadTranscript_ok apiBase parseDate fetch r b hf]
  refine ⟨by rw [hfr]; exact ⟨rfl, rfl, rfl, rfl, rfl, rfl, rfl⟩, ?_, ?_⟩
  · intro r' hs
    simp [highlightedSnippet, hs]
  · intro r' h1 h2 h3 h4
    have hurl : requestUrl apiBase r = requestUrl apiBase r' := by
      simp [requestUrl, h1]
    have hfn : transcriptFilename parseDate r =
        transcriptFilename parseDate r' := by
      simp [transcriptFilename, h2, h3, h4]
    cases hf : fetch (requestUrl apiBase r) with
    | error e =>
      have hf' : fetch (requestUrl apiBase r') = Except.error e := by
        rw [← hurl]; exact hf
      rw [downloadTranscript_err apiBase parseDate fetch r e hf,
        downloadTranscript_err apiBase parseDate fetch r' e hf', hurl]
      exact ⟨rfl, rfl⟩
    | ok b =>
      have hf' : fetch (requestUrl apiBase r') = Except.ok b := by
        rw [← hurl]; exact hf
      rw [downloadTranscript_ok apiBase parseDate fetch r b hf,
        downloadTranscript_ok apiBase parseDate fetch r' b hf', hurl, hfn]
      exact ⟨rfl, rfl⟩

theorem c9_no_mutation_witness :
    ((downloadTranscript "http://api" c1ParseDateW c1FetchW
        c1ResultW).finalResult.uid = c1ResultW.uid ∧
     (downloadTranscript "http://api" c1ParseDateW c1FetchW
        c1ResultW).finalResult.title = c1ResultW.title ∧
     (downloadTranscript "http://api" c1ParseDateW c1FetchW
        c1ResultW).finalResult.snippet = c1ResultW.snippet ∧
     (downloadTranscript "http://api" c1ParseDateW c1FetchW
        c1ResultW).finalResult.datetime = c1ResultW.datetime ∧
     (downloadTranscript "http://api" c1ParseDateW c1FetchW
        c1ResultW).finalResult.start_time = c1ResultW.start_time ∧
     (downloadTranscript "http://api" c1ParseDateW c1FetchW
        c1ResultW).finalResult.link = c1ResultW.link ∧
     (downloadTranscript "http://api" c1ParseDateW c1FetchW
        c1ResultW).finalResult.authority = c1ResultW.authority) ∧
    (highlightedSnippet c1ResultW = highlightedSnippet c1ResultW) ∧
    ((downloadTranscript "http://api" c1ParseDateW c1FetchW c1ResultW).trace =
      (downloadTranscript "http://api" c1ParseDateW c1FetchW c1ResultW).trace ∧
     (downloadTranscript "http://api" c1ParseDateW c1FetchW c1ResultW).thrown =
      (downloadTranscript "http://api" c1ParseDateW c1FetchW c1ResultW).thrown) :=
  ⟨(c9_no_mutation "http://api" c1ParseDateW c1FetchW c1ResultW).1,
   (c9_no_mutation "http://api" c1ParseDateW c1FetchW c1ResultW).2.1
     c1ResultW rfl,
   (c9_no_mutation "http://api" c1ParseDateW c1FetchW c1ResultW).2.2
     c1ResultW rfl rfl rfl rfl⟩

/-- C10: when the datetime fails to parse (an invalid date), a
successful run still completes: no error, no alert, and the date
segment of the filename is exactly `"NaN-NaN-NaN"`. -/
theorem c10_invalid_datetime (apiBase : String) (parseDate : String → JSDate)
    (fetch : String → Except String (List Nat)) (r : SearchResult)
    (bytes : List Nat)
    (hp : parseDate r.datetime = JSDate.invalid)
    (hf : fetch (requestUrl apiBase r) = Except.ok bytes) :
    dateSegment (parseDate r.datetime) = "NaN-NaN-NaN" ∧
    transcriptFilename parseDate r =
      authoritySegment r.authority ++ "-" ++ titleSegment r.title ++
        "-[" ++ "NaN-NaN-NaN" ++ "].txt" ∧
    (downloadTranscript apiBase parseDate fetch r).trace =
      [Effect.fetchGet (requestUrl apiBase r),
       Effect.createObjectURL bytes,
       Effect.saveFile (transcriptFilename parseDate r) bytes,
       Effect.revokeObjectURL bytes] ∧
    (downloadTranscript apiBase parseDate fetch r).thrown = none ∧
    (downloadTranscript apiBase parseDate fetch r).trace.countP isAlertEff
      = 0 := by
  have hds : dateSegment (parseDate r.datetime) = "NaN-NaN-NaN" := by
    rw [hp]; decide
  refine ⟨hds, ?_, ?_, ?_, ?_⟩
  · rw [transcriptFilename, hds]
  · rw [downloadTranscript_ok apiBase parseDate fetch r bytes hf,
      blobOfParts_single]
  · rw [downloadTranscript_ok apiBase parseDate fetch r bytes hf]
  · rw [downloadTranscript_ok apiBase parseDate fetch r bytes hf]
    simp [List.countP, List.countP.go, isAlertEff]

/-- SearchResult used in the C10 witness: its datetime is unparseable. -/
def c10ResultW : SearchResult :=
  { uid := "u", title := "Budget", snippet := "s", datetime := "not a date",
    start_time := "st", link := "l", authority := "council" }

/-- Host date parser used in the C10 witness: parsing always fails. -/
def c10ParseDateW : String → JSDate := fun _ => JSDate.invalid

/-- Fetch stub used in the C10 witness. -/
def c10FetchW : String → Except String (List Nat) := fun _ => Except.ok [10]

/-- C3 counterexample: the snippet `"[a\nb]"` is a substring of the form
bracket, shortest run of characters, bracket, yet the code leaves it
unchanged, because `.` in the JavaScript pattern `\[(.*?)\]` does not
match the newline; in particular the output is not the emphasis-wrapped
content the claim requires. -/
theorem c3_highlight_counterexample :
    highlightString "[a\nb]" = "[a\nb]" ∧
    "[a\nb]" ≠ String.mk (spanOpen ++ "a\nb".data ++ spanClose) := by
  constructor
  · have h1 : findClose ['a', '\n', 'b', ']'] = none := by decide
    have h2 := highlightCore_open_none ['a', '\n', 'b', ']'] h1
    have h3 := highlightCore_id ['a', '\n', 'b', ']'] (by decide)
    show String.mk (highlightCore ('[' :: ['a', '\n', 'b', ']'])) = "[a\nb]"
    rw [h2, h3]
  · decide

/-- C3 (amended): scanning left to right, every occurrence of a `[`
followed by a shortest run of non-line-terminator characters and a
closing `]` is replaced by the bracket content wrapped in the span
markup (brackets removed, content preserved), and scanning continues
after the `]` without re-scanning the replacement; a snippet with no
brackets is returned unchanged; a `[` that is never closed (no later
`]`) is left as literal text. -/
theorem c3_highlight_amended :
    (∀ p x t : List Char, ('[' : Char) ∉ p → (']' : Char) ∉ x →
      (∀ c ∈ x, lineTerminator c = false) →
      highlightCore (p ++ '[' :: (x ++ ']' :: t)) =
        p ++ spanOpen ++ x ++ spanClose ++ highlightCore t) ∧
    (∀ r : SearchResult, ('[' : Char) ∉ r.snippet.data →
      (']' : Char) ∉ r.snippet.data → highlightedSnippet r = r.snippet) ∧
    (∀ p t : List Char, ('[' : Char) ∉ p → (']' : Char) ∉ t →
      highlightCore (p ++ '[' :: t) = p ++ '[' :: highlightCore t) := by
  refine ⟨?_, ?_, ?_⟩
  · intro p x t hp hx hlt
    rw [highlightCore_copy p ('[' :: (x ++ ']' :: t)) hp,
      highlightCore_open_some (x ++ ']' :: t) x t (findClose_append x t hx hlt)]
    simp
  · intro r hop hcl
    have h := highlightCore_id r.snippet.data hop
    simp [highlightedSnippet, highlightString, h]
  · intro p t hp ht
    rw [highlightCore_copy p ('[' :: t) hp,
      highlightCore_open_none t (findClose_none t ht)]

/-- SearchResult used in the C3 witness: a snippet with no brackets. -/
def c3ResultW : SearchResult :=
  { uid := "u", title := "t", snippet := "no brackets here",
    datetime := "d", start_time := "st", link := "l", authority := "a" }

theorem c3_highlight_amended_witness :
    (highlightCore ("ab ".data ++ '[' :: ("hi".data ++ ']' :: "y".data)) =
      "ab ".data ++ spanOpen ++ "hi".data ++ spanClose ++
        highlightCore "y".data) ∧
    (highlightedSnippet c3ResultW = c3ResultW.snippet) ∧
    (highlightCore ("q".data ++ '[' :: "r".data) =
      "q".data ++ '[' :: highlightCore "r".data) :=
  ⟨c3_highlight_amended.1 "ab ".data "hi".data "y".data (by decide)
      (by decide) (by decide),
   c3_highlight_amended.2.1 c3ResultW (by decide) (by decide),
   c3_highlight_amended.2.2 "q".data "r".data (by decide) (by decide)⟩

theorem c10_invalid_datetime_witness :
    dateSegment (c10ParseDateW c10ResultW.datetime) = "NaN-NaN-NaN" ∧
    transcriptFilename c10ParseDateW c10ResultW =
      authoritySegment c10ResultW.authority ++ "-" ++
        titleSegment c10ResultW.title ++ "-[" ++ "NaN-NaN-NaN" ++ "].txt" ∧
    (downloadTranscript "http://api" c10ParseDateW c10FetchW
      c10ResultW).trace =
      [Effect.fetchGet (requestUrl "http://api" c10ResultW),
       Effect.createObjectURL [10],
       Effect.saveFile (transcriptFilename c10ParseDateW c10ResultW) [10],
       Effect.revokeObjectURL [10]] ∧
    (downloadTranscript "http://api" c10ParseDateW c10FetchW
      c10ResultW).thrown = none ∧
    (downloadTranscript "http://api" c10ParseDateW c10FetchW
      c10ResultW).trace.countP isAlertEff = 0 :=
  c10_invalid_datetime "http://api" c10ParseDateW c10FetchW c10ResultW
    [10] rfl rfl
